import Mathlib

/-!
# Verification of `tower_cli/resources/workflow_job.py`

A shallow embedding of the workflow-job resource: the scorecard builder
`lookup_stdout` (clamped line-range slicing over the finished-job list,
fixed-width rendering, newline joining) and the `launch` command
(extra-vars merging, dropping of unset fields, posting, optional monitor
delegation).  Python strings are modelled as Lean `String` over their
code points, Python integers as `Int`, Python dicts as association lists
with first-match lookup, and fallible operations (out-of-range indexing,
a missing dict key, calling `len` on `None`) as `Option`/`Except`.
-/

namespace WorkflowJob

/-- A child-job record returned by the unified-jobs lister.  Fields are the
ones the code reads: `name`, `status`, `finished`, `elapsed`; plus the
workflow back-reference the code filters on (`unified_job_node__workflow_job`). -/
structure UnifiedJob where
  name : String
  status : String
  finished : String
  elapsed : String
  workflow_job : Nat
deriving DecidableEq, Inhabited

/-! ## Python primitives -/

/-- Python string slice from the start: the first `n` code points of `s`. -/
def pyTrunc (s : String) (n : Nat) : String :=
  ⟨s.data.take n⟩

/-- Python `str.upper` (ASCII case mapping). -/
def pyUpper (s : String) : String :=
  ⟨s.data.map Char.toUpper⟩

/-- Python format spec "space fill, left align, width w": pad `s` on the
right with spaces up to width `w`; a string already at least `w` code
points long is returned unchanged (never truncated). -/
def pyLjust (s : String) (w : Nat) : String :=
  ⟨s.data ++ List.replicate (w - s.data.length) ' '⟩

/-- Python `range(a, b)` over integers: `a, a+1, ..., b-1`
(empty when `b ≤ a`). -/
def intRange (a b : Int) : List Int :=
  (List.range (b - a).toNat).map (fun (k : Nat) => a + (k : Int))

/-- Python list indexing `l[i]`: non-negative indexes from the front,
negative indexes from the back (`l[i] = l[len l + i]` for `i < 0`);
`none` models an `IndexError`. -/
def pyIndex {α : Type} (l : List α) (i : Int) : Option α :=
  if 0 ≤ i then l.get? i.toNat
  else if 0 ≤ (l.length : Int) + i then l.get? ((l.length : Int) + i).toNat
  else Option.none

/-- Run a fallible function over every element in order, failing as a whole
on the first failure (models a loop body that may raise). -/
def mapOpt {α β : Type} (f : α → Option β) : List α → Option (List β)
  | [] => Option.some []
  | a :: l =>
    match f a, mapOpt f l with
    | Option.some b, Option.some bs => Option.some (b :: bs)
    | _, _ => Option.none

/-! ## Scorecard builder (`lookup_stdout`, source lines 39-78) -/

/-- The query the code sends to the unified-jobs lister (source lines 50-52):
restrict to children of this workflow job, order by finished time,
keep only final job states. -/
def query_params (pk : Nat) : List (String × String) :=
  [("unified_job_node__workflow_job", toString pk),
   ("order_by", "finished"),
   ("status__in", "successful,failed,error")]

/-- The set of statuses the query keeps: the comma-separated members of the
literal "successful,failed,error" in the query (source line 52). -/
def finalStatuses : List String :=
  ["successful", "failed", "error"]

/-- Source lines 56-60: `start_range` resolution.  `none` means the
argument was absent (`None`). -/
def startRange (N : Nat) (start_line : Option Int) : Int :=
  match start_line with
  | Option.none => 0
  | Option.some s => if s > (N : Int) then (N : Int) else s

/-- Source lines 62-64: `end_range` resolution. -/
def endRange (N : Nat) (end_line : Option Int) : Int :=
  match end_line with
  | Option.none => (N : Int)
  | Option.some e => if e > (N : Int) then (N : Int) else e

/-- Source lines 69-74: one line of the scorecard.  The format string
left-justifies (space fill) the name sliced to 20 code points in width 20,
the upper-cased status sliced to 10 in width 10, the finished timestamp
sliced to 20 in width 20, and the elapsed value (not sliced) in width 10,
with the literal separators of the format string. -/
def renderLine (j : UnifiedJob) : String :=
  pyLjust (pyTrunc j.name 20) 20 ++ " " ++
    pyLjust (pyUpper (pyTrunc j.status 10)) 10 ++ " at " ++
    pyLjust (pyTrunc j.finished 20) 20 ++ " in " ++
    pyLjust j.elapsed 10 ++ " seconds"

/-- The rendered line exactly as claim C2 words it, for comparison with
`renderLine`: name, upper-cased status and finished timestamp truncated and
left-justified to widths 20, 10, 20, but elapsed rendered at natural width
with no padding. -/
def claimedLineC2 (j : UnifiedJob) : String :=
  pyLjust (pyTrunc j.name 20) 20 ++ " " ++
    pyLjust (pyUpper (pyTrunc j.status 10)) 10 ++ " at " ++
    pyLjust (pyTrunc j.finished 20) 20 ++ " in " ++
    j.elapsed ++ " seconds"

/-- Source lines 66-68: the records the loop visits, in order —
`jobs_list[i]` for `i in range(start_range, end_range)`.  `none` models an
`IndexError` escaping the loop; rendering itself is total, so the loop of
the source is this selection followed by rendering each record. -/
def selectedRecords (jobs_list : List UnifiedJob) (start_line end_line : Option Int) :
    Option (List UnifiedJob) :=
  mapOpt (pyIndex jobs_list)
    (intRange (startRange jobs_list.length start_line) (endRange jobs_list.length end_line))

/-- Source lines 66-74: the list `lines` after the loop. -/
def scorecardLines (jobs_list : List UnifiedJob) (start_line end_line : Option Int) :
    Option (List String) :=
  (selectedRecords jobs_list start_line end_line).map (List.map renderLine)

/-- Source lines 75-78: join the lines with a newline and append a trailing
newline exactly when at least one line was produced.  The whole of
`lookup_stdout` given the lister's results. -/
def lookup_stdout (jobs_list : List UnifiedJob) (start_line end_line : Option Int) :
    Option String :=
  (scorecardLines jobs_list start_line end_line).map (fun lines =>
    let return_content := String.intercalate "\n" lines
    if lines.length > 0 then return_content ++ "\n" else return_content)

/-! ## Launch command (`launch`, source lines 97-118) -/

/-- A Python/JSON value as it appears in the launch payload and responses.
`null` is Python `None`, the "unset" sentinel of the field framework;
`vars` is the structured extra-variables payload produced by the parser. -/
inductive Value where
  | str : String → Value
  | int : Int → Value
  | bool : Bool → Value
  | null : Value
  | vars : List (String × String) → Value
deriving DecidableEq

/-- Python dict lookup `d[k]` (first matching binding; `none` models a
`KeyError`).  Association lists model dicts; only lookup-after-update
behaviour matters to the code, not binding order. -/
def dictGet {β : Type} : List (String × β) → String → Option β
  | [], _ => Option.none
  | p :: rest, k => if p.1 = k then Option.some p.2 else dictGet rest k

/-- Python dict assignment `d[k] = v`: any previous binding of `k` is
replaced by the new one. -/
def dictSet {β : Type} (d : List (String × β)) (k : String) (v : β) :
    List (String × β) :=
  d.filter (fun p => p.1 != k) ++ [(k, v)]

/-- Split a character list at the first occurrence of the equals sign:
everything before it and everything after it. -/
def splitEq : List Char → List Char × List Char
  | [] => ([], [])
  | c :: rest =>
    if c = Char.ofNat 61 then ([], rest)
    else (c :: (splitEq rest).1, (splitEq rest).2)

/-- Split one `key=value` fragment at its first `=` sign. -/
def parseKV (s : String) : String × String :=
  (⟨(splitEq s.data).1⟩, ⟨(splitEq s.data).2⟩)

/-- Modelled from the spec: `parser.process_extra_vars` from
`tower_cli.utils.parser` is not under `src/`.  Per the spec, the ordered
source fragments are merged in order into a single structured variables
payload, later sources overriding earlier ones on key collision. -/
def process_extra_vars (sources : List String) : List (String × String) :=
  sources.foldl (fun acc s => dictSet acc (parseKV s).1 (parseKV s).2) []

/-- Modelled from the spec: `self._pop_none` from the resource framework
(`models.ExeResource`) is not under `src/`.  Per the spec, any field whose
value is the unset/none sentinel is dropped before submission; fields with
real values (including falsy-but-set ones) are retained. -/
def _pop_none (d : List (String × Value)) : List (String × Value) :=
  d.filter (fun p => p.2 != Value.null)

/-- Python `format` of the template id into the launch URL
(source lines 109-110); `None` formats as the string "None". -/
def pyStrOptInt : Option Int → String
  | Option.none => "None"
  | Option.some n => toString n

/-- The launch endpoint the request is posted to (source lines 109-110). -/
def launchEndpoint (workflow_job_template : Option Int) : String :=
  "workflow_job_templates/" ++ pyStrOptInt workflow_job_template ++ "/launch/"

/-- Source lines 104-108: the request body actually submitted — `kwargs`
with the merged `extra_vars` added when the sources list is non-empty,
then stripped of unset fields by `_pop_none`. -/
def launchBody (extra_vars : List String) (kwargs : List (String × Value)) :
    List (String × Value) :=
  _pop_none (if extra_vars.length > 0
    then dictSet kwargs "extra_vars" (Value.vars (process_extra_vars extra_vars))
    else kwargs)

/-- Errors `launch` can raise before returning: calling `len` on the `None`
default of `extra_vars` raises a `TypeError` (source line 104, before any
request is made); a response without an `id` key raises a `KeyError`
(source line 112). -/
inductive LaunchError where
  | typeError
  | keyError
deriving DecidableEq

/-- What an invocation of `launch` did: the body it posted, whether (and
with which id/timeout) it delegated to the monitor collaborator, and the
value it returned. -/
structure LaunchTrace where
  submittedBody : List (String × Value)
  monitorCalled : Option (Value × Option Int)
  result : List (String × Value)
deriving DecidableEq

/-- Source lines 97-118.  `clientPost` abstracts `client.post` (URL and
body to decoded response); `monitorFn` abstracts the monitor collaborator.
The source sets `changed` on the post response before the branch, but
the `monitor` branch returns the monitor's value, not that response. -/
def launch (clientPost : String → List (String × Value) → List (String × Value))
    (monitorFn : Value → Option Int → List (String × Value))
    (workflow_job_template : Option Int) (monitor : Bool) (timeout : Option Int)
    (extra_vars : Option (List String)) (kwargs : List (String × Value)) :
    Except LaunchError LaunchTrace :=
  match extra_vars with
  | Option.none => Except.error LaunchError.typeError
  | Option.some evs =>
    let body := launchBody evs kwargs
    let post_response := clientPost (launchEndpoint workflow_job_template) body
    match dictGet post_response "id" with
    | Option.none => Except.error LaunchError.keyError
    | Option.some workflow_job_id =>
      if monitor then
        Except.ok ⟨body, Option.some (workflow_job_id, timeout),
          monitorFn workflow_job_id timeout⟩
      else
        Except.ok ⟨body, Option.none, dictSet post_response "changed" (Value.bool true)⟩

/-! ## Sample data (the example of spec section 8) for concrete witnesses -/

/-- Example finished job "Setup" of the spec's worked example. -/
def jobSetup : UnifiedJob :=
  ⟨"Setup", "successful", "2017-01-01T01:00:00Z", "5", 42⟩

/-- Example finished job "Deploy" of the spec's worked example. -/
def jobDeploy : UnifiedJob :=
  ⟨"Deploy", "failed", "2017-01-01T02:00:00Z", "12", 42⟩

/-- Example finished job "Verify" of the spec's worked example. -/
def jobVerify : UnifiedJob :=
  ⟨"Verify", "successful", "2017-01-01T03:00:00Z", "3", 42⟩

/-- The spec example's finished-job list, ordered by finished time. -/
def exampleJobs : List UnifiedJob :=
  [jobSetup, jobDeploy, jobVerify]

/-! ## Helper lemmas about the Python primitives -/

theorem mapOpt_congr {α β : Type} {f g : α → Option β} {l : List α}
    (h : ∀ a ∈ l, f a = g a) : mapOpt f l = mapOpt g l := by
  induction l with
  | nil => rfl
  | cons a l ih =>
    simp only [mapOpt]
    rw [h a (List.mem_cons_self a l), ih (fun x hx => h x (List.mem_cons_of_mem a hx))]

theorem mapOpt_map {α β γ : Type} (f : β → Option γ) (g : α → β) (l : List α) :
    mapOpt f (l.map g) = mapOpt (fun a => f (g a)) l := by
  induction l with
  | nil => rfl
  | cons a l ih => simp only [List.map_cons, mapOpt, ih]

theorem mapOpt_append {α β : Type} {f : α → Option β} {l₁ l₂ : List α} {y₁ y₂ : List β}
    (h₁ : mapOpt f l₁ = Option.some y₁) (h₂ : mapOpt f l₂ = Option.some y₂) :
    mapOpt f (l₁ ++ l₂) = Option.some (y₁ ++ y₂) := by
  induction l₁ generalizing y₁ with
  | nil =>
    simp only [mapOpt, Option.some.injEq] at h₁
    subst h₁
    simpa using h₂
  | cons a l ih =>
    cases hfa : f a with
    | none => simp only [mapOpt, hfa] at h₁; exact Option.noConfusion h₁
    | some b =>
      cases hml : mapOpt f l with
      | none => simp only [mapOpt, hfa, hml] at h₁; exact Option.noConfusion h₁
      | some bs =>
        simp only [mapOpt, hfa, hml, Option.some.injEq] at h₁
        subst h₁
        have hrec := ih hml
        rw [List.cons_append]
        simp only [mapOpt, hfa, hrec, List.cons_append]

theorem mapOpt_get_range {α : Type} (l : List α) :
    ∀ (k a : Nat), a + k ≤ l.length →
      mapOpt (fun j => l.get? (a + j)) (List.range k) = Option.some ((l.drop a).take k) := by
  intro k
  induction k with
  | zero => intro a _; simp [mapOpt, List.range_zero, List.take_zero]
  | succ k ih =>
    intro a h
    have ha : a < l.length := by omega
    have hrec : mapOpt (fun j => l.get? (a + j)) ((List.range k).map Nat.succ)
        = Option.some ((l.drop (a + 1)).take k) := by
      rw [mapOpt_map]
      rw [mapOpt_congr (g := fun j => l.get? ((a + 1) + j)) ?_]
      · exact ih (a + 1) (by omega)
      · intro j _
        have hj : a + Nat.succ j = (a + 1) + j := by omega
        rw [hj]
    rw [List.range_succ_eq_map]
    rw [List.drop_eq_get_cons ha, List.take_succ_cons]
    simp only [mapOpt, hrec, Nat.add_zero, List.get?_eq_get ha]

/-- Unrolling `mapOpt` over an integer range to a natural-number range. -/
theorem mapOpt_intRange {β : Type} (f : Int → Option β) (a b : Int) :
    mapOpt f (intRange a b) =
      mapOpt (fun k : Nat => f (a + (k : Int))) (List.range (b - a).toNat) :=
  mapOpt_map f (fun (k : Nat) => a + (k : Int)) (List.range (b - a).toNat)

/-- Slicing a non-negative integer range with Python indexing over a list
is take-after-drop. -/
theorem mapOpt_pyIndex_nonneg {α : Type} (l : List α) (a b : Int)
    (ha0 : 0 ≤ a) (haN : a ≤ (l.length : Int)) (hbN : b ≤ (l.length : Int)) :
    mapOpt (pyIndex l) (intRange a b) =
      Option.some ((l.drop a.toNat).take ((b - a).toNat)) := by
  have hcong : mapOpt (fun k : Nat => pyIndex l (a + (k : Int))) (List.range (b - a).toNat)
      = mapOpt (fun k : Nat => l.get? (a.toNat + k)) (List.range (b - a).toNat) := by
    refine mapOpt_congr fun k _ => ?_
    unfold pyIndex
    rw [if_pos (by omega : (0 : Int) ≤ a + (k : Int))]
    congr 1
    omega
  rw [mapOpt_intRange, hcong, mapOpt_get_range l ((b - a).toNat) a.toNat (by omega)]

/-- Slicing a negative-to-zero integer range with Python indexing over a
list yields the tail of the list (negative indexing from the back). -/
theorem mapOpt_pyIndex_neg {α : Type} (l : List α) (t : Int)
    (h1 : -(l.length : Int) ≤ t) (h2 : t ≤ 0) :
    mapOpt (pyIndex l) (intRange t 0) =
      Option.some (l.drop ((l.length : Int) + t).toNat) := by
  have hcong : mapOpt (fun k : Nat => pyIndex l (t + (k : Int))) (List.range (0 - t).toNat)
      = mapOpt (fun k : Nat => l.get? (((l.length : Int) + t).toNat + k))
          (List.range (0 - t).toNat) := by
    refine mapOpt_congr fun k hk => ?_
    have hk2 : (k : Int) < 0 - t := by
      have := List.mem_range.mp hk
      omega
    unfold pyIndex
    rw [if_neg (by omega), if_pos (by omega)]
    congr 1
    omega
  rw [mapOpt_intRange, hcong,
    mapOpt_get_range l ((0 - t).toNat) ((l.length : Int) + t).toNat (by omega)]
  rw [List.take_of_length_le (by rw [List.length_drop]; omega)]

/-- An integer range through zero splits at zero. -/
theorem intRange_split (a c : Int) (ha : a ≤ 0) (hc : 0 ≤ c) :
    intRange a c = intRange a 0 ++ intRange 0 c := by
  unfold intRange
  have h3 : (c - a).toNat = (0 - a).toNat + (c - 0).toNat := by omega
  rw [h3, List.range_add, List.map_append, List.map_map]
  congr 1
  apply List.map_congr_left
  intro k _
  simp only [Function.comp_apply]
  omega

theorem startRange_bounds (N : Nat) (s : Option Int) (hs : ∀ x, s = Option.some x → 0 ≤ x) :
    0 ≤ startRange N s ∧ startRange N s ≤ (N : Int) := by
  cases s with
  | none => simp [startRange]
  | some x =>
    have := hs x rfl
    simp only [startRange]
    split <;> omega

theorem endRange_bounds (N : Nat) (e : Option Int) (he : ∀ x, e = Option.some x → 0 ≤ x) :
    0 ≤ endRange N e ∧ endRange N e ≤ (N : Int) := by
  cases e with
  | none => simp [endRange]
  | some x =>
    have := he x rfl
    simp only [endRange]
    split <;> omega

/-- The selected slice for absent-or-non-negative bounds: never an error,
and equal to a contiguous take-after-drop slice of the job list. -/
theorem selectedRecords_nonneg (jobs_list : List UnifiedJob) (s e : Option Int)
    (hs : ∀ x, s = Option.some x → 0 ≤ x) (he : ∀ x, e = Option.some x → 0 ≤ x) :
    selectedRecords jobs_list s e =
      Option.some ((jobs_list.drop (startRange jobs_list.length s).toNat).take
        ((endRange jobs_list.length e - startRange jobs_list.length s).toNat)) := by
  obtain ⟨h1, h2⟩ := startRange_bounds jobs_list.length s hs
  obtain ⟨h3, h4⟩ := endRange_bounds jobs_list.length e he
  exact mapOpt_pyIndex_nonneg jobs_list _ _ h1 h2 h4

/-! ## The claims -/

/-- C1: for every finished-job list of length N and every (startLine, endLine)
pair, each absent or a non-negative integer, the scorecard contains exactly
max(0, effectiveEnd - effectiveStart) lines — effectiveStart being 0 when
startLine is absent, N when startLine exceeds N, else startLine, and
effectiveEnd being N when endLine is absent or exceeds N, else endLine;
a start past N or an empty window gives an empty result, not an error. -/
theorem C1_line_count (jobs_list : List UnifiedJob) (s e : Option Int)
    (hs : ∀ x, s = Option.some x → 0 ≤ x) (he : ∀ x, e = Option.some x → 0 ≤ x) :
    ∃ lines, scorecardLines jobs_list s e = Option.some lines ∧
      (lines.length : Int) =
        max 0 (endRange jobs_list.length e - startRange jobs_list.length s) := by
  obtain ⟨h1, h2⟩ := startRange_bounds jobs_list.length s hs
  obtain ⟨h3, h4⟩ := endRange_bounds jobs_list.length e he
  refine ⟨List.map renderLine ((jobs_list.drop (startRange jobs_list.length s).toNat).take
      ((endRange jobs_list.length e - startRange jobs_list.length s).toNat)), ?_, ?_⟩
  · unfold scorecardLines
    rw [selectedRecords_nonneg jobs_list s e hs he]
    rfl
  · rw [List.length_map, List.length_take, List.length_drop]
    omega

/-- Witness for C1 at the spec's worked example: three finished jobs and a
start line of 5 (past the end) produce zero lines and no error. -/
theorem C1_line_count_witness :
    (∀ x, (Option.some (5 : Int)) = Option.some x → 0 ≤ x) ∧
    (∃ lines, scorecardLines exampleJobs (Option.some 5) Option.none = Option.some lines ∧
      (lines.length : Int) =
        max 0 (endRange exampleJobs.length Option.none -
               startRange exampleJobs.length (Option.some 5))) := by
  refine ⟨?_, ?_⟩
  · intro x h
    rw [Option.some.injEq] at h
    omega
  · exact C1_line_count exampleJobs (Option.some 5) Option.none
      (fun x h => by rw [Option.some.injEq] at h; omega)
      (fun x h => Option.noConfusion h)

/-- C9: for `-N ≤ startLine < 0` and an absent endLine the range is not
empty and not an error: the loop runs over `range(startLine, N)` and Python
negative indexing makes the first `-startLine` lines come from the tail of
the list (records `N + startLine` through `N - 1`), followed by all `N`
records in order, `N + (-startLine)` lines in total. -/
theorem C9_negative_start (jobs_list : List UnifiedJob) (t : Int)
    (h1 : -(jobs_list.length : Int) ≤ t) (h2 : t < 0) :
    scorecardLines jobs_list (Option.some t) Option.none =
      Option.some (List.map renderLine
        (jobs_list.drop ((jobs_list.length : Int) + t).toNat ++ jobs_list)) ∧
    ((List.map renderLine
        (jobs_list.drop ((jobs_list.length : Int) + t).toNat ++ jobs_list)).length : Int) =
      (jobs_list.length : Int) + (-t) := by
  have hN : (0 : Int) ≤ (jobs_list.length : Int) := by positivity
  have hsr : startRange jobs_list.length (Option.some t) = t := by
    simp only [startRange]
    rw [if_neg (by omega)]
  have her : endRange jobs_list.length Option.none = (jobs_list.length : Int) := rfl
  have hsel : selectedRecords jobs_list (Option.some t) Option.none =
      Option.some (jobs_list.drop ((jobs_list.length : Int) + t).toNat ++ jobs_list) := by
    unfold selectedRecords
    rw [hsr, her, intRange_split t (jobs_list.length : Int) (by omega) hN]
    have hneg := mapOpt_pyIndex_neg jobs_list t h1 (by omega)
    have hpos := mapOpt_pyIndex_nonneg jobs_list 0 (jobs_list.length : Int)
      (by omega) (by omega) (by omega)
    rw [mapOpt_append hneg hpos]
    congr 1
    rw [Int.toNat_zero, List.drop_zero]
    rw [List.take_of_length_le (by omega)]
  constructor
  · unfold scorecardLines
    rw [hsel]
    rfl
  · rw [List.length_map, List.length_append, List.length_drop]
    omega

/-- Witness for C9: start line -1 over the three example jobs yields the
last record followed by all three, four lines in total. -/
theorem C9_negative_start_witness :
    (-(exampleJobs.length : Int) ≤ -1 ∧ (-1 : Int) < 0) ∧
    (scorecardLines exampleJobs (Option.some (-1)) Option.none =
      Option.some (List.map renderLine
        (exampleJobs.drop ((exampleJobs.length : Int) + -1).toNat ++ exampleJobs)) ∧
    ((List.map renderLine
        (exampleJobs.drop ((exampleJobs.length : Int) + -1).toNat ++ exampleJobs)).length : Int) =
      (exampleJobs.length : Int) + (-(-1))) := by
  refine ⟨⟨by norm_num [exampleJobs], by norm_num⟩, ?_⟩
  exact C9_negative_start exampleJobs (-1) (by norm_num [exampleJobs]) (by norm_num)

/-- C2 counterexample: the claim renders elapsed at natural width, but the
format string pads elapsed (left-justified) to width 10 — on the spec's own
"Setup" example the code emits nine trailing spaces after the elapsed value
"5", so the claimed template does not match the rendered line. -/
theorem C2_render_counterexample :
    renderLine jobSetup ≠ claimedLineC2 jobSetup ∧
    renderLine jobSetup =
      "Setup                SUCCESSFUL at 2017-01-01T01:00:00Z in 5          seconds" ∧
    claimedLineC2 jobSetup =
      "Setup                SUCCESSFUL at 2017-01-01T01:00:00Z in 5 seconds" := by
  refine ⟨by decide, by decide, by decide⟩

/-- C2 amended: each rendered line is the template with name truncated to 20,
status truncated to 10 and upper-cased, finished truncated to 20, each
left-justified to widths 20, 10, 20, and elapsed left-justified to width 10
(padded with spaces when shorter, kept whole when longer — never truncated);
over-long fields are truncated, never wrapped and never an error. -/
theorem pyTrunc_length (s : String) (n : Nat) : (pyTrunc s n).length = min n s.length := by
  rcases s with ⟨l⟩
  simp [pyTrunc, String.length]

theorem pyUpper_length (s : String) : (pyUpper s).length = s.length := by
  rcases s with ⟨l⟩
  simp [pyUpper, String.length]

theorem pyLjust_length (s : String) (w : Nat) : (pyLjust s w).length = max w s.length := by
  rcases s with ⟨l⟩
  simp [pyLjust, String.length]
  omega

theorem C2_render_amended (j : UnifiedJob) :
    renderLine j =
      pyLjust (pyTrunc j.name 20) 20 ++ " " ++
        pyLjust (pyUpper (pyTrunc j.status 10)) 10 ++ " at " ++
        pyLjust (pyTrunc j.finished 20) 20 ++ " in " ++
        pyLjust j.elapsed 10 ++ " seconds" ∧
    (pyLjust (pyTrunc j.name 20) 20).length = 20 ∧
    (pyLjust (pyUpper (pyTrunc j.status 10)) 10).length = 10 ∧
    (pyLjust (pyTrunc j.finished 20) 20).length = 20 ∧
    (pyLjust j.elapsed 10).length = max 10 j.elapsed.length := by
  refine ⟨rfl, ?_, ?_, ?_, ?_⟩ <;>
    simp only [pyLjust_length, pyTrunc_length, pyUpper_length] <;>
    omega

/-- C8: under the lister's contract for the query the code sends (children
of this workflow job only, final states only, ordered by finished time
ascending), every record appearing in the scorecard selection has the
workflow back-reference `pk` and a terminal status — never pending or
running — and the selected records stay ordered by finished ascending. -/
theorem C8_scorecard_invariant (jobs_list : List UnifiedJob) (pk : Nat) (s e : Option Int)
    (hq : ∀ j ∈ jobs_list, j.workflow_job = pk ∧ j.status ∈ finalStatuses)
    (hsort : List.Pairwise (fun a b : UnifiedJob => a.finished ≤ b.finished) jobs_list)
    (hs : ∀ x, s = Option.some x → 0 ≤ x) (he : ∀ x, e = Option.some x → 0 ≤ x) :
    ∃ sel, selectedRecords jobs_list s e = Option.some sel ∧
      (∀ j ∈ sel, j.workflow_job = pk ∧ j.status ∈ finalStatuses ∧
        j.status ≠ "pending" ∧ j.status ≠ "running") ∧
      List.Pairwise (fun a b : UnifiedJob => a.finished ≤ b.finished) sel := by
  refine ⟨_, selectedRecords_nonneg jobs_list s e hs he, ?_, ?_⟩
  all_goals
    have hsub : ((jobs_list.drop (startRange jobs_list.length s).toNat).take
        ((endRange jobs_list.length e - startRange jobs_list.length s).toNat)).Sublist
          jobs_list :=
      (List.take_sublist _ _).trans (List.drop_sublist _ _)
  · intro j hj
    obtain ⟨hw, hst⟩ := hq j (hsub.subset hj)
    refine ⟨hw, hst, ?_, ?_⟩ <;>
      · simp only [finalStatuses, List.mem_cons, List.not_mem_nil, or_false] at hst
        rcases hst with h | h | h <;> rw [h] <;> decide
  · exact List.Pairwise.sublist hsub hsort

/-- Witness for C8 at the spec's worked example: three finished children of
workflow job 42, all terminal, ordered by finished time. -/
theorem C8_scorecard_invariant_witness :
    (∀ j ∈ exampleJobs, j.workflow_job = 42 ∧ j.status ∈ finalStatuses) ∧
    List.Pairwise (fun a b : UnifiedJob => a.finished ≤ b.finished) exampleJobs ∧
    (∃ sel, selectedRecords exampleJobs Option.none Option.none = Option.some sel ∧
      (∀ j ∈ sel, j.workflow_job = 42 ∧ j.status ∈ finalStatuses ∧
        j.status ≠ "pending" ∧ j.status ≠ "running") ∧
      List.Pairwise (fun a b : UnifiedJob => a.finished ≤ b.finished) sel) := by
  have h1 : ∀ j ∈ exampleJobs, j.workflow_job = 42 ∧ j.status ∈ finalStatuses := by decide
  have hle1 : jobSetup.finished ≤ jobDeploy.finished := by
    rw [String.le_iff_toList_le]
    decide
  have hle2 : jobSetup.finished ≤ jobVerify.finished := by
    rw [String.le_iff_toList_le]
    decide
  have hle3 : jobDeploy.finished ≤ jobVerify.finished := by
    rw [String.le_iff_toList_le]
    decide
  have h2 : List.Pairwise (fun a b : UnifiedJob => a.finished ≤ b.finished) exampleJobs := by
    show List.Pairwise _ [jobSetup, jobDeploy, jobVerify]
    refine List.Pairwise.cons ?_ (List.Pairwise.cons ?_ (List.pairwise_singleton _ _))
    · intro b hb
      rcases List.mem_cons.mp hb with rfl | hb2
      · exact hle1
      · rcases List.mem_cons.mp hb2 with rfl | hb3
        · exact hle2
        · exact absurd hb3 (List.not_mem_nil b)
    · intro b hb
      rcases List.mem_cons.mp hb with rfl | hb2
      · exact hle3
      · exact absurd hb2 (List.not_mem_nil b)
  exact ⟨h1, h2, C8_scorecard_invariant exampleJobs 42 Option.none Option.none h1 h2
    (fun x h => Option.noConfusion h) (fun x h => Option.noConfusion h)⟩

/-- C7: the scorecard text is the lines joined by single newlines; when at
least one line was produced a single trailing newline is appended (the text
ends in a newline character), and zero lines give the empty string. -/
theorem C7_joining (jobs_list : List UnifiedJob) (s e : Option Int) (lines : List String)
    (h : scorecardLines jobs_list s e = Option.some lines) :
    (lines = [] → lookup_stdout jobs_list s e = Option.some "") ∧
    (lines ≠ [] →
      lookup_stdout jobs_list s e =
        Option.some (String.intercalate "\n" lines ++ "\n") ∧
      (String.intercalate "\n" lines ++ "\n").data.getLast? = Option.some '\n') := by
  constructor
  · rintro rfl
    unfold lookup_stdout
    rw [h]
    rfl
  · intro hne
    have hpos : lines.length > 0 := List.length_pos.mpr hne
    constructor
    · unfold lookup_stdout
      rw [h]
      simp only [Option.map_some', if_pos hpos]
    · have hdata : (String.intercalate "\n" lines ++ "\n").data
          = (String.intercalate "\n" lines).data ++ ['\n'] := by
        rfl
      rw [hdata, List.getLast?_concat]

/-- Witness for C7 at the spec's worked example: the three rendered lines
are newline-joined with a single trailing newline. -/
theorem C7_joining_witness :
    scorecardLines exampleJobs Option.none Option.none =
      Option.some (List.map renderLine exampleJobs) ∧
    lookup_stdout exampleJobs Option.none Option.none =
      Option.some (String.intercalate "\n" (List.map renderLine exampleJobs) ++ "\n") := by
  have h : scorecardLines exampleJobs Option.none Option.none =
      Option.some (List.map renderLine exampleJobs) := by rfl
  exact ⟨h, ((C7_joining exampleJobs Option.none Option.none _ h).2
    (by simp [exampleJobs])).1⟩

/-! ## Dict lemmas and the launch claims -/

theorem dictGet_eq_none {β : Type} {d : List (String × β)} {k : String} :
    dictGet d k = Option.none ↔ ∀ p ∈ d, p.1 ≠ k := by
  induction d with
  | nil => simp [dictGet]
  | cons p rest ih =>
    simp only [dictGet, List.mem_cons]
    by_cases hpk : p.1 = k
    · rw [if_pos hpk]
      constructor
      · intro h
        exact Option.noConfusion h
      · intro h
        exact absurd hpk (h p (Or.inl rfl))
    · rw [if_neg hpk, ih]
      constructor
      · intro h q hq
        rcases hq with rfl | hq
        · exact hpk
        · exact h q hq
      · intro h q hq
        exact h q (Or.inr hq)

theorem dictGet_append {β : Type} (l₁ l₂ : List (String × β)) (k : String) :
    dictGet (l₁ ++ l₂) k = (dictGet l₁ k).orElse (fun _ => dictGet l₂ k) := by
  induction l₁ with
  | nil => rfl
  | cons p rest ih =>
    simp only [List.cons_append, dictGet]
    by_cases hpk : p.1 = k
    · rw [if_pos hpk, if_pos hpk]
      rfl
    · rw [if_neg hpk, if_neg hpk]
      exact ih

theorem dictGet_dictSet_self {β : Type} (d : List (String × β)) (k : String) (v : β) :
    dictGet (dictSet d k v) k = Option.some v := by
  unfold dictSet
  rw [dictGet_append]
  have hnone : dictGet (d.filter (fun p => p.1 != k)) k = Option.none := by
    rw [dictGet_eq_none]
    intro p hp
    have h2 := (List.mem_filter.mp hp).2
    simpa using h2
  rw [hnone]
  simp [dictGet]

theorem dictGet_filter_key_ne {β : Type} {k k' : String} (h : k' ≠ k) :
    ∀ d : List (String × β), dictGet (d.filter (fun p => p.1 != k)) k' = dictGet d k'
  | [] => rfl
  | p :: rest => by
    by_cases hpk : p.1 = k
    · rw [List.filter_cons, if_neg (by simp [hpk]), dictGet_filter_key_ne h rest]
      conv_rhs => rw [dictGet]
      rw [if_neg (by rw [hpk]; exact fun hh => h hh.symm)]
    · rw [List.filter_cons, if_pos (by simp [hpk]), dictGet, dictGet]
      by_cases hpk' : p.1 = k'
      · rw [if_pos hpk', if_pos hpk']
      · rw [if_neg hpk', if_neg hpk']
        exact dictGet_filter_key_ne h rest

theorem dictGet_dictSet_ne {β : Type} (d : List (String × β)) {k k' : String} (v : β)
    (h : k' ≠ k) : dictGet (dictSet d k v) k' = dictGet d k' := by
  unfold dictSet
  rw [dictGet_append, dictGet_filter_key_ne h d]
  cases hd : dictGet d k' with
  | none =>
    simp only [Option.orElse]
    rw [dictGet, if_neg (fun hh => h hh.symm)]
    rfl
  | some w => rfl

/-- Looking up the freshly merged key after the unset-field sweep finds the
merged value (it is not the unset sentinel, so the sweep keeps it). -/
theorem dictGet_pop_none_dictSet (kwargs : List (String × Value)) (k : String) (v : Value)
    (hv : v ≠ Value.null) :
    dictGet ( _pop_none (dictSet kwargs k v)) k = Option.some v := by
  unfold _pop_none dictSet
  rw [List.filter_append, dictGet_append]
  have hnone : dictGet ((kwargs.filter (fun p => p.1 != k)).filter
      (fun p => p.2 != Value.null)) k = Option.none := by
    rw [dictGet_eq_none]
    intro p hp
    have h2 := (List.mem_filter.mp (List.mem_filter.mp hp).1).2
    simpa using h2
  rw [hnone]
  have hkeep : List.filter (fun p => p.2 != Value.null) [(k, v)] = [(k, v)] := by
    simp [hv]
  rw [hkeep]
  simp [dictGet]

/-- C10: calling launch with the declared `None` default for `extra_vars`
raises a TypeError at the `len(extra_vars)` check, before any request is
submitted — the outcome does not depend on the transport at all, so no
remote state can have been touched. -/
theorem C10_extra_vars_none_type_error
    (clientPost : String → List (String × Value) → List (String × Value))
    (monitorFn : Value → Option Int → List (String × Value))
    (workflow_job_template : Option Int) (monitor : Bool) (timeout : Option Int)
    (kwargs : List (String × Value)) :
    launch clientPost monitorFn workflow_job_template monitor timeout Option.none kwargs =
      Except.error LaunchError.typeError := rfl

/-- C4: with monitor not requested, launch never invokes the monitor
collaborator (the trace records no delegation and the outcome is the same
for every `monitorFn`), accepts any `timeout` value (including 30) without
error, and returns the raw launch response augmented with changed = true. -/
theorem C4_no_monitor
    (clientPost : String → List (String × Value) → List (String × Value))
    (monitorFn : Value → Option Int → List (String × Value))
    (workflow_job_template : Option Int) (timeout : Option Int)
    (evs : List String) (kwargs : List (String × Value)) (v : Value)
    (hid : dictGet (clientPost (launchEndpoint workflow_job_template)
      (launchBody evs kwargs)) "id" = Option.some v) :
    launch clientPost monitorFn workflow_job_template false timeout
        (Option.some evs) kwargs =
      Except.ok
        { submittedBody := launchBody evs kwargs
          monitorCalled := Option.none
          result := dictSet (clientPost (launchEndpoint workflow_job_template)
            (launchBody evs kwargs)) "changed" (Value.bool true) } ∧
    dictGet (dictSet (clientPost (launchEndpoint workflow_job_template)
        (launchBody evs kwargs)) "changed" (Value.bool true)) "changed" =
      Option.some (Value.bool true) := by
  constructor
  · simp [launch, hid]
  · exact dictGet_dictSet_self _ _ _

/-- Witness for C4: a transport answering with id 7, a monitor that would
return nothing, monitor off and a timeout of 30 seconds. -/
theorem C4_no_monitor_witness :
    dictGet ([("id", Value.int 7)] : List (String × Value)) "id"
      = Option.some (Value.int 7) ∧
    launch (fun _ _ => [("id", Value.int 7)]) (fun _ _ => []) (Option.some 1) false
        (Option.some 30) (Option.some []) [] =
      Except.ok
        { submittedBody := launchBody [] []
          monitorCalled := Option.none
          result := dictSet [("id", Value.int 7)] "changed" (Value.bool true) } := by
  refine ⟨by decide, ?_⟩
  exact (C4_no_monitor (fun _ _ => [("id", Value.int 7)]) (fun _ _ => [])
    (Option.some 1) (Option.some 30) [] [] (Value.int 7) (by decide)).1

/-- C3 counterexample: with monitor requested and a monitor collaborator
returning an empty result object, launch returns that object — it carries
no changed = true marker and no identifier, refuting the claim for the
monitored case. -/
theorem C3_changed_counterexample :
    launch (fun _ _ => [("id", Value.int 1)]) (fun _ _ => []) (Option.some 1) true
        Option.none (Option.some []) [] =
      Except.ok
        { submittedBody := []
          monitorCalled := Option.some (Value.int 1, Option.none)
          result := [] } ∧
    dictGet ([] : List (String × Value)) "changed" ≠ Option.some (Value.bool true) ∧
    dictGet ([] : List (String × Value)) "id" ≠ Option.some (Value.int 1) := by
  refine ⟨rfl, by decide, by decide⟩

/-- C3 amended: when monitor is not requested the returned result is the
backend's response augmented with changed = true, still carrying the new
WorkflowJob identifier and every other backend field; when monitor is
requested, launch returns whatever the monitor collaborator returns in
place of the raw response (which need not carry the marker). -/
theorem C3_changed_marker
    (clientPost : String → List (String × Value) → List (String × Value))
    (monitorFn : Value → Option Int → List (String × Value))
    (workflow_job_template : Option Int) (monitor : Bool) (timeout : Option Int)
    (evs : List String) (kwargs : List (String × Value)) (v : Value)
    (hid : dictGet (clientPost (launchEndpoint workflow_job_template)
      (launchBody evs kwargs)) "id" = Option.some v) :
    launch clientPost monitorFn workflow_job_template monitor timeout
        (Option.some evs) kwargs =
      Except.ok
        { submittedBody := launchBody evs kwargs
          monitorCalled := if monitor then Option.some (v, timeout) else Option.none
          result := if monitor then monitorFn v timeout
            else dictSet (clientPost (launchEndpoint workflow_job_template)
              (launchBody evs kwargs)) "changed" (Value.bool true) } ∧
    dictGet (dictSet (clientPost (launchEndpoint workflow_job_template)
        (launchBody evs kwargs)) "changed" (Value.bool true)) "changed" =
      Option.some (Value.bool true) ∧
    (∀ k w, k ≠ "changed" →
      dictGet (clientPost (launchEndpoint workflow_job_template)
        (launchBody evs kwargs)) k = Option.some w →
      dictGet (dictSet (clientPost (launchEndpoint workflow_job_template)
        (launchBody evs kwargs)) "changed" (Value.bool true)) k = Option.some w) ∧
    dictGet (dictSet (clientPost (launchEndpoint workflow_job_template)
        (launchBody evs kwargs)) "changed" (Value.bool true)) "id" =
      Option.some v := by
  refine ⟨?_, dictGet_dictSet_self _ _ _, ?_, ?_⟩
  · cases monitor <;> simp [launch, hid]
  · intro k w hk hw
    rw [dictGet_dictSet_ne _ _ hk]
    exact hw
  · rw [dictGet_dictSet_ne _ _ (by decide)]
    exact hid

/-- Witness for C3 (amended) in the monitored case: the result recorded in
the trace is exactly the monitor collaborator's return value. -/
theorem C3_changed_marker_witness :
    dictGet ([("id", Value.int 9)] : List (String × Value)) "id"
      = Option.some (Value.int 9) ∧
    launch (fun _ _ => [("id", Value.int 9)])
        (fun i _ => [("monitored", i)]) (Option.some 2) true (Option.some 10)
        (Option.some []) [] =
      Except.ok
        { submittedBody := launchBody [] []
          monitorCalled := Option.some (Value.int 9, Option.some 10)
          result := [("monitored", Value.int 9)] } := by
  refine ⟨by decide, ?_⟩
  exact (C3_changed_marker (fun _ _ => [("id", Value.int 9)])
    (fun i _ => [("monitored", i)]) (Option.some 2) true (Option.some 10) [] []
    (Value.int 9) (by decide)).1

/-- C5: a non-empty extra-vars source sequence is merged in order (later
sources override earlier ones on key collision — on sources a=1, a=2, b=3
the merged payload is a=2, b=3) into a single extra_vars entry of the
submitted body; an empty sequence leaves no extra_vars field in the body. -/
theorem C5_extra_vars_merge (evs : List String) (kwargs : List (String × Value))
    (hk : dictGet kwargs "extra_vars" = Option.none) :
    (evs ≠ [] → dictGet (launchBody evs kwargs) "extra_vars"
      = Option.some (Value.vars (process_extra_vars evs))) ∧
    (evs = [] → dictGet (launchBody evs kwargs) "extra_vars" = Option.none) ∧
    process_extra_vars ["a=1", "a=2", "b=3"] = [("a", "2"), ("b", "3")] ∧
    dictGet (process_extra_vars ["a=1", "a=2", "b=3"]) "a" = Option.some "2" ∧
    dictGet (process_extra_vars ["a=1", "a=2", "b=3"]) "b" = Option.some "3" := by
  refine ⟨?_, ?_, by decide, by decide, by decide⟩
  · intro hne
    unfold launchBody
    rw [if_pos (by simpa using List.length_pos.mpr hne)]
    exact dictGet_pop_none_dictSet kwargs "extra_vars"
      (Value.vars (process_extra_vars evs)) (by simp)
  · intro hempty
    subst hempty
    unfold launchBody
    rw [if_neg (by simp)]
    unfold _pop_none
    rw [dictGet_eq_none] at hk ⊢
    intro p hp
    exact hk p (List.mem_filter.mp hp).1

/-- Witness for C5: one source fragment a=1 over an empty field set puts the
merged payload into the body; no sources leave the body without the field. -/
theorem C5_extra_vars_merge_witness :
    dictGet ([] : List (String × Value)) "extra_vars" = Option.none ∧
    dictGet (launchBody ["a=1"] []) "extra_vars"
      = Option.some (Value.vars [("a", "1")]) ∧
    dictGet (launchBody [] []) "extra_vars" = Option.none := by
  have h := C5_extra_vars_merge ["a=1"] [] (by decide)
  have h0 := C5_extra_vars_merge [] [] (by decide)
  exact ⟨by decide, by
    have h1 := h.1 (by simp)
    simpa using h1, h0.2.1 rfl⟩

/-- C6: after the unset-field sweep, no field bound to the unset sentinel
remains in the submitted body, while every field of the caller's mapping
with a real value (0, the empty string and false included) is retained. -/
theorem C6_unset_fields_dropped (evs : List String) (kwargs : List (String × Value))
    (hk : dictGet kwargs "extra_vars" = Option.none) :
    (∀ k, (k, Value.null) ∉ launchBody evs kwargs) ∧
    (∀ k v, (k, v) ∈ kwargs → v ≠ Value.null → (k, v) ∈ launchBody evs kwargs) := by
  constructor
  · intro k hk2
    unfold launchBody _pop_none at hk2
    have h2 := (List.mem_filter.mp hk2).2
    simp at h2
  · intro k v hmem hv
    have hne : k ≠ "extra_vars" := by
      rw [dictGet_eq_none] at hk
      exact hk (k, v) hmem
    unfold launchBody _pop_none
    by_cases hev : evs.length > 0
    · rw [if_pos hev]
      unfold dictSet
      rw [List.filter_append]
      apply List.mem_append_left
      exact List.mem_filter.mpr ⟨List.mem_filter.mpr ⟨hmem, by simpa using hne⟩,
        by simpa using hv⟩
    · rw [if_neg hev]
      exact List.mem_filter.mpr ⟨hmem, by simpa using hv⟩

/-- Witness for C6: a body holding a zero, an empty string, an explicit
false and an unset field — only the unset field disappears. -/
theorem C6_unset_fields_dropped_witness :
    dictGet [("limit", Value.int 0), ("job_tags", Value.str ""),
        ("verbosity", Value.bool false), ("inventory", Value.null)] "extra_vars"
      = Option.none ∧
    ("inventory", Value.null) ∉ launchBody []
      [("limit", Value.int 0), ("job_tags", Value.str ""),
       ("verbosity", Value.bool false), ("inventory", Value.null)] ∧
    ("limit", Value.int 0) ∈ launchBody []
      [("limit", Value.int 0), ("job_tags", Value.str ""),
       ("verbosity", Value.bool false), ("inventory", Value.null)] ∧
    ("job_tags", Value.str "") ∈ launchBody []
      [("limit", Value.int 0), ("job_tags", Value.str ""),
       ("verbosity", Value.bool false), ("inventory", Value.null)] ∧
    ("verbosity", Value.bool false) ∈ launchBody []
      [("limit", Value.int 0), ("job_tags", Value.str ""),
       ("verbosity", Value.bool false), ("inventory", Value.null)] := by
  have h := C6_unset_fields_dropped []
    [("limit", Value.int 0), ("job_tags", Value.str ""),
     ("verbosity", Value.bool false), ("inventory", Value.null)] (by decide)
  exact ⟨by decide, h.1 "inventory",
    h.2 "limit" (Value.int 0) (by decide) (by decide),
    h.2 "job_tags" (Value.str "") (by decide) (by decide),
    h.2 "verbosity" (Value.bool false) (by decide) (by decide)⟩

end WorkflowJob
